import Mathlib

/-!
Verification development for `zypper-filesearch`.

The file shallowly embeds the parts of the program that the verified
properties are about:

* the SQLite `LIKE` and `GLOB` builtins, used by the queries in
  `database/database.go` (`'R' LIKE packages.arch || '%'`,
  `files.file GLOB ?`);
* the relational cache (`database/database.go`): the three tables of the
  schema created in `initialize`, the `INSERT OR REPLACE` statements of
  `UpdateRepository` together with the cascading deletes enabled by
  `PRAGMA recursive_triggers = 1` and `PRAGMA foreign_keys = 1`;
* the query engine (`SearchFile`, `ListPackage`);
* the SQL text built by `fmt.Sprintf` for the arch filter;
* the refresh pipeline (`repository/repository.go`, `updateRepository`).
-/

namespace ZypperFilesearch

/-! ## SQLite string matching

`likeAux` models the default `sqlite3` LIKE operator (no `ESCAPE`
clause): `%` matches any sequence, `_` matches one character, and other
characters compare after ASCII upper-to-lower folding (the
`sqlite3UpperToLower` table folds only `A`–`Z`).

`globAux` models the `sqlite3` GLOB operator: `*`, `?`, and `[...]`
character classes with `^` negation and `-` ranges, case-sensitive.
Both are written with a fuel argument so that they are structurally
recursive and reduce by evaluation; every recursive step consumes at
least one unit of pattern+subject, so the fuel chosen by the wrappers is
never exhausted. -/

def upperToLower (c : Char) : Char :=
  if 'A' ≤ c ∧ c ≤ 'Z' then Char.ofNat (c.toNat + 32) else c

def likeAux : Nat → List Char → List Char → Bool
  | 0, _, _ => false
  | _ + 1, [], s => s.isEmpty
  | fuel + 1, '%' :: p, s =>
    likeAux fuel p s ||
      (match s with
       | [] => false
       | _ :: s' => likeAux fuel ('%' :: p) s')
  | fuel + 1, '_' :: p, s =>
    (match s with
     | [] => false
     | _ :: s' => likeAux fuel p s')
  | fuel + 1, c :: p, s =>
    (match s with
     | [] => false
     | b :: s' => decide (upperToLower c = upperToLower b) && likeAux fuel p s')

/-- `likeMatch pat s` is the SQL expression `s LIKE pat`. -/
def likeMatch (pat s : String) : Bool :=
  likeAux (pat.length + s.length + 1) pat.data s.data

/-- One step of the `[...]` class scanner of sqlite3's `patternCompare`:
`c` is the subject character, the list is the pattern after `[` (and
after the optional `^` and leading literal `]`), `prior` is the last
literal set member seen (`prior_c`), `seen` whether `c` matched so far.
Returns the `seen` flag and the pattern after the closing `]`, or `none`
for an unterminated class. -/
def classScan (c : Char) : Nat → List Char → Option Char → Bool → Option (Bool × List Char)
  | 0, _, _, _ => none
  | _ + 1, [], _, _ => none
  | _ + 1, ']' :: rest, _, seen => some (seen, rest)
  | fuel + 1, '-' :: p, prior, seen =>
    (match p, prior with
     | hi :: rest, some lo =>
       if hi = ']' then
         classScan c fuel p (some '-') (seen || decide (c = '-'))
       else
         classScan c fuel rest none (seen || (decide (lo ≤ c) && decide (c ≤ hi)))
     | _, _ => classScan c fuel p (some '-') (seen || decide (c = '-')))
  | fuel + 1, c2 :: p, _, seen => classScan c fuel p (some c2) (seen || decide (c = c2))

/-- Entry point for a `[...]` class: handles the optional `^` and a
literal `]` in first position, then scans.  Returns the rest of the
pattern when the subject character `c` is accepted by the class. -/
def classEntry (c : Char) (p : List Char) : Option (List Char) :=
  let inv : Bool := match p with | '^' :: _ => true | _ => false
  let q := match p with | '^' :: p1 => p1 | _ => p
  let res := match q with
    | ']' :: q1 => classScan c (q1.length + 1) q1 none (decide (c = ']'))
    | _ => classScan c (q.length + 1) q none false
  match res with
  | none => none
  | some (seen, rest) => if seen ≠ inv then some rest else none

def globAux : Nat → List Char → List Char → Bool
  | 0, _, _ => false
  | _ + 1, [], s => s.isEmpty
  | fuel + 1, '*' :: p, s =>
    globAux fuel p s ||
      (match s with
       | [] => false
       | _ :: s' => globAux fuel ('*' :: p) s')
  | fuel + 1, '?' :: p, s =>
    (match s with
     | [] => false
     | _ :: s' => globAux fuel p s')
  | fuel + 1, '[' :: p, s =>
    (match s with
     | [] => false
     | ch :: s' =>
       match classEntry ch p with
       | some rest => globAux fuel rest s'
       | none => false)
  | fuel + 1, c :: p, s =>
    (match s with
     | [] => false
     | b :: s' => decide (c = b) && globAux fuel p s')

/-- `globMatch pat s` is the SQL expression `s GLOB pat`. -/
def globMatch (pat s : String) : Bool :=
  globAux (pat.length + s.length + 1) pat.data s.data

/-! ## Relational cache (`database/database.go`)

Rows of the three tables created by `initialize` (schema version 2):

```
repositories(id PK AUTOINCREMENT, alias, name, url UNIQUE, type,
             enabled, lastChecked, lastModified)
packages(repository REFERENCES repositories(id) ON DELETE CASCADE,
         id PK AUTOINCREMENT, pkgid UNIQUE, name, arch, version,
         UNIQUE (repository, name, arch, version))
files(pkgid REFERENCES packages(id) ON DELETE CASCADE, file,
      PRIMARY KEY (pkgid, file))
```

Timestamps are modelled as seconds (`Int`).  `AUTOINCREMENT` is
modelled with monotone counters.  `INSERT OR REPLACE` deletes every row
that conflicts on any unique constraint and, because the store runs with
`PRAGMA recursive_triggers = 1` and `PRAGMA foreign_keys = 1` (see the
comment in `UpdateRepository`), those deletes cascade to child rows. -/

structure RepoRow where
  id : Nat
  ralias : String
  name : String
  url : String
  rtype : String
  enabled : Bool
  lastChecked : Int
  lastModified : Int
deriving Repr, DecidableEq

structure PkgRow where
  repository : Nat
  id : Nat
  pkgid : String
  name : String
  arch : String
  version : String
deriving Repr, DecidableEq

/-- A `files` row; the column named `pkgid` stores the surrogate
`packages.id` (resolved by a subquery in `UpdateRepository`), `none`
when the subquery found no package. -/
structure FileRow where
  pkgid : Option Nat
  file : String
deriving Repr, DecidableEq

structure DB where
  repositories : List RepoRow
  packages : List PkgRow
  files : List FileRow
  nextRepoId : Nat
  nextPkgId : Nat
deriving Repr, DecidableEq

def DB.empty : DB := ⟨[], [], [], 1, 1⟩

/-- `SELECT lastChecked, lastModified FROM repositories WHERE url = ?`
(`GetTimestamps`); `none` models `sql.ErrNoRows`. -/
def GetTimestamps (db : DB) (url : String) : Option (Int × Int) :=
  (db.repositories.find? (fun r => r.url = url)).map fun r =>
    (r.lastChecked, r.lastModified)

/-- `INSERT OR REPLACE INTO repositories (alias, name, url, type,
enabled, lastChecked, lastModified) VALUES (?, ?, ?, ?, ?, ?, ?)`.
The conflict on `UNIQUE(url)` replaces the old row; the delete cascades
to that repository's packages and, from there, to their files.  Returns
the new state and `LastInsertId`. -/
def insertOrReplaceRepository (db : DB) (ralias name url rtype : String)
    (enabled : Bool) (lastChecked lastModified : Int) : DB × Nat :=
  let removedRepoIds := (db.repositories.filter (fun r => r.url = url)).map (·.id)
  let removedPkgIds :=
    (db.packages.filter (fun p => p.repository ∈ removedRepoIds)).map (·.id)
  let newRow : RepoRow :=
    ⟨db.nextRepoId, ralias, name, url, rtype, enabled, lastChecked, lastModified⟩
  (⟨(db.repositories.filter (fun r => ¬r.url = url)) ++ [newRow],
    db.packages.filter (fun p => ¬p.repository ∈ removedRepoIds),
    db.files.filter (fun f =>
      match f.pkgid with
      | some i => ¬i ∈ removedPkgIds
      | none => true),
    db.nextRepoId + 1,
    db.nextPkgId⟩,
   db.nextRepoId)

/-- Whether a `packages` row conflicts with an insert of
`(repository, pkgid, name, arch, version)`: either on `UNIQUE(pkgid)`
or on `UNIQUE (repository, name, arch, version)`. -/
def pkgConflict (repoId : Nat) (pkgid name arch version : String) (p : PkgRow) : Bool :=
  p.pkgid = pkgid ||
    (p.repository = repoId && p.name = name && p.arch = arch && p.version = version)

/-- `INSERT OR REPLACE INTO packages (repository, pkgid, name, arch,
version) VALUES(?, ?, ?, ?, ?)` (the `pkgStmt` of `UpdateRepository`).
Conflicting rows are replaced and their files cascade away. -/
def insertOrReplacePackage (db : DB) (repoId : Nat)
    (pkgid name arch version : String) : DB :=
  let removedIds :=
    (db.packages.filter (pkgConflict repoId pkgid name arch version)).map (·.id)
  let newRow : PkgRow := ⟨repoId, db.nextPkgId, pkgid, name, arch, version⟩
  ⟨db.repositories,
   (db.packages.filter (fun p => ¬pkgConflict repoId pkgid name arch version p)) ++ [newRow],
   db.files.filter (fun f =>
     match f.pkgid with
     | some i => ¬i ∈ removedIds
     | none => true),
   db.nextRepoId,
   db.nextPkgId + 1⟩

/-- `INSERT OR REPLACE INTO files (pkgid, file) VALUES ((SELECT id FROM
packages WHERE packages.pkgid = ?), ?)` (the `fileStmt` of
`UpdateRepository`).  The scalar subquery yields the surrogate id of
the package with the given upstream `pkgid`, or NULL; a NULL key never
conflicts under SQLite, so deduplication only applies to a non-NULL
key. -/
def insertOrReplaceFile (db : DB) (pkgid file : String) : DB :=
  let fk := (db.packages.find? (fun p => p.pkgid = pkgid)).map (·.id)
  ⟨db.repositories,
   db.packages,
   (db.files.filter (fun f => ¬(fk.isSome ∧ f.pkgid = fk ∧ f.file = file))) ++ [⟨fk, file⟩],
   db.nextRepoId,
   db.nextPkgId⟩

/-! ## `UpdateRepository` transaction protocol (`database/database.go`)

`UpdateRepository` opens a transaction, defers a rollback (a no-op once
committed), upserts the repository row, prepares the package and file
statements, hands the caller two closures, and commits only after the
callback returns `nil`; every earlier `return` leaves the transaction
rolled back.

The callback is modelled by the sequence of closure invocations it
makes (`Cmd`), each paired with the success of the underlying
`ExecContext` (the SQL engine is external, so its failures are oracle
input), plus whether the callback itself returns an error after all its
calls succeeded.  The sole caller, `repository.go`, returns the error
of a failing invocation immediately, and that discipline is what the
model encodes: a failing statement ends the callback with that error. -/

inductive Cmd where
  | pkg (pkgid name arch version : String)
  | file (pkgid file : String)
deriving Repr, DecidableEq

def execCmd (repoRowId : Nat) (db : DB) : Cmd → DB
  | .pkg pkgid name arch version => insertOrReplacePackage db repoRowId pkgid name arch version
  | .file pkgid file => insertOrReplaceFile db pkgid file

/-- Run the callback's invocations inside the transaction; `none` when
an invocation's statement failed (the callback then returns that
error). -/
def runCalls (repoRowId : Nat) : DB → List (Cmd × Bool) → Option DB
  | db, [] => some db
  | db, (c, ok) :: rest =>
    if ok then runCalls repoRowId (execCmd repoRowId db c) rest else none

/-- Oracle input for one `UpdateRepository` call: success of the
repository upsert, the callback's invocations with their statement
outcomes, whether the callback returns an error of its own, and the
success of `tx.Commit()`. -/
structure TxInput where
  repoInsertOk : Bool
  calls : List (Cmd × Bool)
  bodyErr : Bool
  commitOk : Bool
deriving Repr, DecidableEq

structure TxResult where
  db : DB
  committed : Bool
  err : Bool
deriving Repr, DecidableEq

/-- `UpdateRepository` (`database.go:162`).  Any `return` before
`tx.Commit()` triggers the deferred `tx.Rollback()`, so the visible
state reverts to the caller's `db`. -/
def UpdateRepository (db : DB) (ralias name url rtype : String) (enabled : Bool)
    (lastChecked lastModified : Int) (t : TxInput) : TxResult :=
  let res :=
    insertOrReplaceRepository db ralias name url rtype enabled lastChecked lastModified
  if ¬t.repoInsertOk then ⟨db, false, true⟩
  else
    match runCalls res.2 res.1 t.calls with
    | none => ⟨db, false, true⟩
    | some db2 =>
      if t.bodyErr then ⟨db, false, true⟩
      else if ¬t.commitOk then ⟨db, false, true⟩
      else ⟨db2, true, false⟩

/-! ## Query engine (`database/database.go`)

`SearchFile` and `ListPackage` share the arch clause
`(packages.arch == 'noarch' OR '<arch>' LIKE packages.arch || '%')`,
appended only when the requested arch is non-empty. -/

/-- The WHERE-clause arch condition as the SQL engine evaluates it. -/
def archClause (arch pkgArch : String) : Bool :=
  arch = "" || pkgArch = "noarch" || likeMatch (pkgArch ++ "%") arch

structure SearchResult where
  repository : String
  package : String
  arch : String
  version : String
  path : String
deriving Repr, DecidableEq

/-- `SearchFile` (`database.go:245`): the row set of

```
SELECT repositories.name, packages.name, packages.arch,
       packages.version, files.file
FROM packages INNER JOIN repositories
     ON packages.repository == repositories.id
INNER JOIN files ON packages.id == files.pkgid
WHERE files.file GLOB ? AND repositories.url IN (...)
  [AND (packages.arch == 'noarch' OR '<arch>' LIKE packages.arch || '%')]
```
-/
def SearchFile (db : DB) (urls : List String) (path arch : String) : List SearchResult :=
  db.packages.flatMap fun p =>
    db.repositories.flatMap fun r =>
      db.files.flatMap fun f =>
        if p.repository = r.id ∧ f.pkgid = some p.id ∧
            globMatch path f.file ∧ r.url ∈ urls ∧ archClause arch p.arch
        then [⟨r.name, p.name, p.arch, p.version, f.file⟩]
        else []

/-- The candidate query prepared by `ListPackage` (`database.go:281`):

```
SELECT packages.id FROM packages INNER JOIN repositories
  ON packages.repository == repositories.id
WHERE packages.name == ? AND (? == '' OR packages.version == ?)
  AND repositories.url IN (...) [arch clause]
```
-/
def pkgQuery (db : DB) (urls : List String) (arch : String)
    (pkg version : String) : List Nat :=
  db.packages.flatMap fun p =>
    db.repositories.flatMap fun r =>
      if p.repository = r.id ∧ p.name = pkg ∧
          (version = "" ∨ p.version = version) ∧
          r.url ∈ urls ∧ archClause arch p.arch
      then [p.id]
      else []

/-- Index of the last `-`, as `strings.LastIndex(term, "-")`.  The Go
code indexes bytes; since slicing only ever happens at a `-`, which is
a one-byte rune on UTF-8 boundaries, character indices are
equivalent. -/
def lastDash (t : List Char) : Option Nat :=
  (t.reverse.findIdx? (fun c => c = '-')).map fun k => t.length - 1 - k

/-- `strings.TrimSuffix(term, "-")`: remove one trailing dash. -/
def trimDash (t : List Char) : List Char :=
  if t.getLast? = some '-' then t.dropLast else t

/-- The candidate `(name, version)` splits of a (trimmed) term, in the
order `ListPackage` tries them: the whole term with empty version
(index −1), then the split at the rightmost dash, then the split at the
second-rightmost dash. -/
def candidates (t : List Char) : List (String × String) :=
  let whole := [(String.mk t, "")]
  match lastDash t with
  | none => whole
  | some i =>
    whole ++ [(String.mk (t.take i), String.mk (t.drop (i + 1)))] ++
      (match lastDash (t.take i) with
       | none => []
       | some j => [(String.mk (t.take j), String.mk (t.drop (j + 1)))])

/-- The per-term candidate loop of `ListPackage`: query candidates in
order, append all ids of the first candidate that yields rows, set
`found` and break; returns the collected ids and `found`. -/
def tryCandidates (db : DB) (urls : List String) (arch : String) :
    List (String × String) → List Nat × Bool
  | [] => ([], false)
  | (pkg, version) :: rest =>
    let res := pkgQuery db urls arch pkg version
    if res.isEmpty then tryCandidates db urls arch rest else (res, true)

def processTerm (db : DB) (urls : List String) (arch : String)
    (term : List Char) : List Nat × Bool :=
  tryCandidates db urls arch (candidates (trimDash term))

/-- The term loop of `ListPackage`: ids accumulate across terms; each
term with no matching candidate logs `package not found` (with the
trimmed term) and processing continues. -/
def scanTerms (db : DB) (urls : List String) (arch : String) :
    List (List Char) → List Nat × List (List Char)
  | [] => ([], [])
  | t :: rest =>
    let (ids, found) := processTerm db urls arch t
    let (ids', notFound) := scanTerms db urls arch rest
    (ids ++ ids', (if found then [] else [trimDash t]) ++ notFound)

/-- The final query of `ListPackage` (`database.go:337`): all files of
the collected package ids, joined as in `SearchFile` but with no glob,
url, or arch filter. -/
def listPackageRows (db : DB) (pkgIds : List Nat) : List SearchResult :=
  db.packages.flatMap fun p =>
    db.repositories.flatMap fun r =>
      db.files.flatMap fun f =>
        if p.repository = r.id ∧ f.pkgid = some p.id ∧ p.id ∈ pkgIds
        then [⟨r.name, p.name, p.arch, p.version, f.file⟩]
        else []

/-- `ListPackage` (`database.go:278`): result rows and the list of
terms for which `package not found` was logged. -/
def ListPackage (db : DB) (urls : List String) (arch : String)
    (terms : List (List Char)) : List SearchResult × List (List Char) :=
  let (pkgIds, notFound) := scanTerms db urls arch terms
  (listPackageRows db pkgIds, notFound)

/-! ## SQL text construction

`SearchFile` and `ListPackage` build their query text by string
concatenation; the requested arch goes through `fmt.Sprintf` into the
text itself, while the positional `?` parameters receive only the path
(respectively name/version) and the repository URLs.  The text builders
below reproduce those concatenations so that the shape of the generated
SQL can be examined. -/

def squote : Char := Char.ofNat 39

/-- `buildRepoFilter`: `(?, ?, ..., ?)` with one `?` per repository. -/
def buildRepoFilter (n : Nat) : String :=
  "(" ++ String.intercalate (", ") (List.replicate n ("?")) ++ ")"

/-- The arch clause appended by both queries when `arch ≠ ""`:
`fmt.Sprintf(" AND (packages.arch == 'noarch' OR '%s' LIKE packages.arch || '%%' )", arch)`. -/
def archClauseText (arch : String) : String :=
  " AND (packages.arch == 'noarch' OR '" ++ arch ++ "' LIKE packages.arch || '%' )"

def searchQueryText (n : Nat) (arch : String) : String :=
  "SELECT repositories.name, packages.name, packages.arch, packages.version, files.file " ++
  "FROM packages INNER JOIN repositories ON packages.repository == repositories.id " ++
  "INNER JOIN files ON packages.id == files.pkgid " ++
  "WHERE files.file GLOB ? AND repositories.url IN " ++ buildRepoFilter n ++
  (if arch = "" then "" else archClauseText arch)

/-- The parameters bound to `SearchFile`'s query:
`slices.Concat([]any{path}, repoArgs)` — the arch is not among them. -/
def searchQueryArgs (path : String) (urls : List String) : List String :=
  path :: urls

def pkgQueryText (n : Nat) (arch : String) : String :=
  "SELECT packages.id " ++
  "FROM packages INNER JOIN repositories ON packages.repository == repositories.id " ++
  "WHERE packages.name == ? AND (? == '' OR packages.version == ?) AND repositories.url IN " ++
  buildRepoFilter n ++
  (if arch = "" then "" else archClauseText arch)

/-- Scanner for SQLite single-quoted string literals.  Inside a
literal, `''` is an escaped quote — two state toggles that cancel, so
lexing ends inside an unterminated literal exactly when the number of
quote characters toggles the state an odd number of times; the scanner
is therefore the plain toggle automaton.  `sqlTextOk` holds when every
literal is terminated; a query text that ends inside a literal is
rejected by the SQL parser, so executing it returns an error. -/
def sqlQuotesOk : List Char → Bool → Bool
  | [], inStr => !inStr
  | c :: rest, inStr => sqlQuotesOk rest (if c = squote then !inStr else inStr)

def sqlTextOk (s : String) : Bool := sqlQuotesOk s.data false

/-! ## Refresh pipeline (`repository/repository.go`)

`updateRepository` is modelled as a pure function of the repository
record, the cache state, the wallclock (`now`, which is also the
`updateStartTime` stored as `lastChecked`), and oracle inputs for the
outcomes of the two network fetches and for the SHA-512 digest of the
raw file-list body:

* `FetchOutcome.fetchErr` — the HTTP fetch failed (the only error the
  code demotes for disabled repositories);
* `FetchOutcome.parseErr` — the fetch succeeded but decoding failed
  (for the file list this also covers a decompressor construction
  error: both return an error regardless of `enabled`);
* `FetchOutcome.ok` — the decoded document.

`fetches` counts HTTP requests issued.  When the cache has no row for
the URL, `GetTimestamps` yields Go zero times, for which both the
freshness gate and the timestamp-equality gate are false (a zero
`time.Time` is year 1, never within an hour of `now` and never equal to
a `time.Unix` file-list timestamp); the model returns `none` and treats
both gates as failed. -/

structure Repo where
  ralias : String
  name : String
  rtype : String
  enabled : Bool
  url : String
deriving Repr, DecidableEq

structure RepomdData where
  dtype : String
  checksumType : String
  checksumValue : String
  href : String
  timestamp : Int
deriving Repr, DecidableEq

structure UpFile where
  ftype : String
  path : String
deriving Repr, DecidableEq

structure UpPackage where
  pkgid : String
  name : String
  arch : String
  epoch : String
  ver : String
  rel : String
  files : List UpFile
deriving Repr, DecidableEq

inductive FetchOutcome (α : Type) where
  | fetchErr
  | parseErr
  | ok (val : α)
deriving Repr, DecidableEq

/-- The version string stored for a package (`repository.go:185-190`):
`ver-rel`, or `epoch:ver-rel` when the epoch is neither empty nor
`"0"`. -/
def formatVersion (epoch ver rel : String) : String :=
  if epoch = "" ∨ epoch = "0" then ver ++ "-" ++ rel
  else epoch ++ ":" ++ ver ++ "-" ++ rel

/-- `filepath.IsAbs` on Unix: the path is non-empty and its first byte
is `/`. -/
def isAbs (path : String) : Bool :=
  match path.data with
  | c :: _ => c = '/'
  | [] => false

/-- A `<file>` entry survives the two `continue` filters
(`repository.go:191-197`) iff its type is not `"dir"` and its path is
absolute. -/
def keepFile (f : UpFile) : Bool :=
  f.ftype ≠ "dir" && isAbs f.path

/-- One invocation of the `add` callback:
`add(pkg.PkgId, pkg.Name, pkg.Arch, version, file.Path)`. -/
structure AddCall where
  pkgid : String
  name : String
  arch : String
  version : String
  path : String
deriving Repr, DecidableEq

/-- The sequence of `add` invocations made by the body passed to
`db.UpdateRepository` (`repository.go:183-204`): one call per kept file
of each package, in document order. -/
def addCalls (pkgs : List UpPackage) : List AddCall :=
  pkgs.flatMap fun p =>
    (p.files.filter keepFile).map fun f =>
      ⟨p.pkgid, p.name, p.arch, formatVersion p.epoch p.ver p.rel, f.path⟩

/-- Effect of one `add` call on the cache: the package upsert followed
by the file upsert (the `pkgStmt` and `fileStmt` of
`database.UpdateRepository`). -/
def applyAdd (repoRowId : Nat) (db : DB) (c : AddCall) : DB :=
  insertOrReplaceFile
    (insertOrReplacePackage db repoRowId c.pkgid c.name c.arch c.version)
    c.pkgid c.path

structure UpdateResult where
  db : DB
  fetches : Nat
  checksumWarn : Bool
  err : Bool
deriving Repr, DecidableEq

/-- `lastUpdated.Add(time.Hour).After(time.Now())`
(`repository.go:67`). -/
def freshnessHit (ts : Option (Int × Int)) (now : Int) : Bool :=
  match ts with
  | some (lastChecked, _) => decide (lastChecked + 3600 > now)
  | none => false

/-- `timestamp.Equal(lastModified)` (`repository.go:114`). -/
def timestampHit (ts : Option (Int × Int)) (flTimestamp : Int) : Bool :=
  match ts with
  | some (_, lastModified) => decide (flTimestamp = lastModified)
  | none => false

/-- `updateRepository` (`repository.go:56-209`). -/
def updateRepository (db : DB) (repo : Repo) (now : Int)
    (repomd : FetchOutcome (List RepomdData))
    (filelist : FetchOutcome (List UpPackage))
    (actualSha : String) : UpdateResult :=
  if repo.rtype ≠ "rpm-md" then ⟨db, 0, false, false⟩
  else
    let ts := GetTimestamps db repo.url
    if freshnessHit ts now then ⟨db, 0, false, false⟩
    else
      match repomd with
      | .fetchErr => ⟨db, 1, false, repo.enabled⟩
      | .parseErr => ⟨db, 1, false, true⟩
      | .ok mdData =>
        match mdData.find? (fun d => d.dtype = "filelists") with
        | none => ⟨db, 1, false, true⟩
        | some d =>
          if timestampHit ts d.timestamp then ⟨db, 1, false, false⟩
          else
            match filelist with
            | .fetchErr => ⟨db, 2, false, repo.enabled⟩
            | .parseErr => ⟨db, 2, false, true⟩
            | .ok pkgs =>
              let warn : Bool :=
                d.checksumType = "sha512" && actualSha ≠ d.checksumValue
              let res :=
                insertOrReplaceRepository db repo.ralias repo.name repo.url
                  repo.rtype repo.enabled now d.timestamp
              let db2 := (addCalls pkgs).foldl (applyAdd res.2) res.1
              ⟨db2, 2, warn, false⟩

/-! ## Helper lemmas -/

set_option maxRecDepth 8000

theorem mem_guard {α : Type} {c : Prop} [Decidable c] {x y : α} :
    (x ∈ if c then [y] else []) ↔ c ∧ x = y := by
  split <;> simp_all

theorem runCalls_isSome (rid : Nat) (calls : List (Cmd × Bool)) (db : DB) :
    (runCalls rid db calls).isSome = calls.all (fun c => c.2) := by
  induction calls generalizing db with
  | nil => rfl
  | cons hd tl ih =>
    obtain ⟨c, ok⟩ := hd
    cases ok <;> simp [runCalls, ih]

theorem applyAdd_repositories (rid : Nat) (db : DB) (c : AddCall) :
    (applyAdd rid db c).repositories = db.repositories := rfl

theorem foldl_applyAdd_repositories (rid : Nat) (calls : List AddCall) (db : DB) :
    (calls.foldl (applyAdd rid) db).repositories = db.repositories := by
  induction calls generalizing db with
  | nil => rfl
  | cons hd tl ih => simp [List.foldl_cons, ih, applyAdd_repositories]

theorem find?_filter_not {α : Type} (p : α → Bool) (l : List α) (x : α)
    (hx : p x = true) :
    ((l.filter (fun a => !(p a))) ++ [x]).find? p = some x := by
  induction l with
  | nil => simp [List.find?, hx]
  | cons hd tl ih =>
    cases h : p hd <;> simp [List.filter_cons, h, List.find?, ih]

theorem find?_url (l : List RepoRow) (x : RepoRow) (url : String) (hx : x.url = url) :
    ((l.filter (fun r => ¬r.url = url)) ++ [x]).find? (fun r => r.url = url) = some x := by
  have hfun : (fun r : RepoRow => (decide ¬(r.url = url))) =
      fun r : RepoRow => !(decide (r.url = url)) := by
    funext r
    exact decide_not
  calc ((l.filter (fun r => ¬r.url = url)) ++ [x]).find? (fun r => r.url = url)
      = ((l.filter (fun r : RepoRow => !(decide (r.url = url)))) ++ [x]).find?
          (fun r : RepoRow => decide (r.url = url)) := by rw [← hfun]
    _ = some x := find?_filter_not _ l x (by simp [hx])

/-- The commit branch of the refresh pipeline, under the four gate
hypotheses. -/
theorem updateRepository_commit_eq (db : DB) (repo : Repo) (now : Int)
    (mdData : List RepomdData) (d : RepomdData) (pkgs : List UpPackage) (sha : String)
    (htype : repo.rtype = "rpm-md")
    (hfr : freshnessHit (GetTimestamps db repo.url) now = false)
    (hfind : mdData.find? (fun x => x.dtype = "filelists") = some d)
    (hts : timestampHit (GetTimestamps db repo.url) d.timestamp = false) :
    updateRepository db repo now (.ok mdData) (.ok pkgs) sha =
      ⟨(addCalls pkgs).foldl
          (applyAdd (insertOrReplaceRepository db repo.ralias repo.name repo.url
              repo.rtype repo.enabled now d.timestamp).2)
          (insertOrReplaceRepository db repo.ralias repo.name repo.url
              repo.rtype repo.enabled now d.timestamp).1,
        2,
        (d.checksumType = "sha512" && sha ≠ d.checksumValue),
        false⟩ := by
  simp [updateRepository, htype, hfr, hfind, hts]

/-- After a committed refresh, the repository row carries
`lastChecked = now` and `lastModified = d.timestamp`. -/
theorem GetTimestamps_after_commit (db : DB) (repo : Repo) (now : Int)
    (mdData : List RepomdData) (d : RepomdData) (pkgs : List UpPackage) (sha : String)
    (htype : repo.rtype = "rpm-md")
    (hfr : freshnessHit (GetTimestamps db repo.url) now = false)
    (hfind : mdData.find? (fun x => x.dtype = "filelists") = some d)
    (hts : timestampHit (GetTimestamps db repo.url) d.timestamp = false) :
    GetTimestamps (updateRepository db repo now (.ok mdData) (.ok pkgs) sha).db repo.url =
      some (now, d.timestamp) := by
  rw [updateRepository_commit_eq db repo now mdData d pkgs sha htype hfr hfind hts]
  unfold GetTimestamps
  rw [foldl_applyAdd_repositories]
  have h := find?_url db.repositories
    ⟨db.nextRepoId, repo.ralias, repo.name, repo.url, repo.rtype, repo.enabled,
      now, d.timestamp⟩ repo.url rfl
  simp only [insertOrReplaceRepository] at h ⊢
  rw [h]
  rfl

/-! ## Claim theorems -/

/-- C1: In `UpdateRepository`, if the body callback returns an error
(in particular when a statement inside one of the two insert closures
fails and the body propagates it, as the sole caller does), the deferred
rollback leaves the cache unchanged and nothing is committed; the
update is committed exactly when no error occurred, and — given the
transaction's own repository upsert and commit succeed — exactly when
every callback statement succeeds and the body returns no error. -/
theorem UpdateRepository_atomic (db : DB) (ralias name url rtype : String)
    (enabled : Bool) (lc lm : Int) (t : TxInput) :
    ((UpdateRepository db ralias name url rtype enabled lc lm t).err = true →
      (UpdateRepository db ralias name url rtype enabled lc lm t).db = db ∧
      (UpdateRepository db ralias name url rtype enabled lc lm t).committed = false) ∧
    ((UpdateRepository db ralias name url rtype enabled lc lm t).committed = true ↔
      (UpdateRepository db ralias name url rtype enabled lc lm t).err = false) ∧
    (t.repoInsertOk = true → t.commitOk = true →
      ((UpdateRepository db ralias name url rtype enabled lc lm t).committed = true ↔
        t.calls.all (fun c => c.2) = true ∧ t.bodyErr = false)) := by
  obtain ⟨rio, calls, be, co⟩ := t
  have hrun := runCalls_isSome
    (insertOrReplaceRepository db ralias name url rtype enabled lc lm).2 calls
    (insertOrReplaceRepository db ralias name url rtype enabled lc lm).1
  cases hrc : runCalls
      (insertOrReplaceRepository db ralias name url rtype enabled lc lm).2
      (insertOrReplaceRepository db ralias name url rtype enabled lc lm).1 calls <;>
    rw [hrc] at hrun <;>
    cases rio <;> cases be <;> cases co <;>
    simp_all [UpdateRepository, hrc]

/-- C1 witness: with one successful package statement and an error-free
body the update commits; with a body error it rolls back to the
original state. -/
theorem UpdateRepository_atomic_witness :
    (UpdateRepository DB.empty ("a") ("n") ("u") ("rpm-md") true 0 0
        ⟨true, [(.pkg ("p") ("pn") ("x86_64") ("1-1"), true)], false, true⟩).committed = true ∧
    (UpdateRepository DB.empty ("a") ("n") ("u") ("rpm-md") true 0 0
        ⟨true, [(.pkg ("p") ("pn") ("x86_64") ("1-1"), true)], true, true⟩).db = DB.empty := by
  constructor
  · exact ((UpdateRepository_atomic DB.empty ("a") ("n") ("u") ("rpm-md") true 0 0
      ⟨true, [(.pkg ("p") ("pn") ("x86_64") ("1-1"), true)], false, true⟩).2.2 rfl rfl).mpr
      ⟨by decide, rfl⟩
  · exact ((UpdateRepository_atomic DB.empty ("a") ("n") ("u") ("rpm-md") true 0 0
      ⟨true, [(.pkg ("p") ("pn") ("x86_64") ("1-1"), true)], true, true⟩).1 (by decide)).1

/-- C7: when the stored `lastChecked` satisfies
`lastChecked + 1 hour > now`, the refresh returns success with no HTTP
request and no cache write; consequently a second refresh of the same
repository within an hour of a committed first refresh is such a
no-op. -/
theorem refresh_freshness_noop :
    (∀ (db : DB) (repo : Repo) (now lc lm : Int)
        (md : FetchOutcome (List RepomdData)) (fl : FetchOutcome (List UpPackage))
        (sha : String),
      GetTimestamps db repo.url = some (lc, lm) → now < lc + 3600 →
      updateRepository db repo now md fl sha = ⟨db, 0, false, false⟩) ∧
    (∀ (db : DB) (repo : Repo) (now : Int) (mdData : List RepomdData) (d : RepomdData)
        (pkgs : List UpPackage) (sha : String) (now2 : Int)
        (md2 : FetchOutcome (List RepomdData)) (fl2 : FetchOutcome (List UpPackage))
        (sha2 : String),
      repo.rtype = "rpm-md" →
      freshnessHit (GetTimestamps db repo.url) now = false →
      mdData.find? (fun x => x.dtype = "filelists") = some d →
      timestampHit (GetTimestamps db repo.url) d.timestamp = false →
      now2 < now + 3600 →
      updateRepository (updateRepository db repo now (.ok mdData) (.ok pkgs) sha).db
          repo now2 md2 fl2 sha2 =
        ⟨(updateRepository db repo now (.ok mdData) (.ok pkgs) sha).db, 0, false, false⟩) := by
  have base : ∀ (db : DB) (repo : Repo) (now lc lm : Int)
      (md : FetchOutcome (List RepomdData)) (fl : FetchOutcome (List UpPackage))
      (sha : String),
      GetTimestamps db repo.url = some (lc, lm) → now < lc + 3600 →
      updateRepository db repo now md fl sha = ⟨db, 0, false, false⟩ := by
    intro db repo now lc lm md fl sha h hfresh
    by_cases htype : repo.rtype = "rpm-md" <;>
      simp [updateRepository, htype, freshnessHit, h, hfresh]
  refine ⟨base, ?_⟩
  intro db repo now mdData d pkgs sha now2 md2 fl2 sha2 htype hfr hfind hts hlt
  exact base _ repo now2 now d.timestamp md2 fl2 sha2
    (GetTimestamps_after_commit db repo now mdData d pkgs sha htype hfr hfind hts) hlt

/-- C7 witness: a cache whose row for the URL was checked at time 1000
is not refreshed at time 2000; and after a committed refresh of an
empty cache at time 5000, a second refresh at time 6000 is a no-op. -/
theorem refresh_freshness_noop_witness :
    updateRepository
        ⟨[⟨1, "a", "n", "u", "rpm-md", true, 1000, 50⟩], [], [], 2, 1⟩
        ⟨"a", "n", "rpm-md", true, "u"⟩ 2000 .fetchErr .fetchErr ("s") =
      ⟨⟨[⟨1, "a", "n", "u", "rpm-md", true, 1000, 50⟩], [], [], 2, 1⟩, 0, false, false⟩ ∧
    updateRepository
        (updateRepository DB.empty ⟨"a", "n", "rpm-md", true, "u"⟩ 5000
          (.ok [⟨"filelists", "", "", "f.gz", 100⟩]) (.ok []) ("s")).db
        ⟨"a", "n", "rpm-md", true, "u"⟩ 6000 .fetchErr .fetchErr ("s") =
      ⟨(updateRepository DB.empty ⟨"a", "n", "rpm-md", true, "u"⟩ 5000
          (.ok [⟨"filelists", "", "", "f.gz", 100⟩]) (.ok []) ("s")).db, 0, false, false⟩ := by
  constructor
  · exact refresh_freshness_noop.1
      ⟨[⟨1, "a", "n", "u", "rpm-md", true, 1000, 50⟩], [], [], 2, 1⟩
      ⟨"a", "n", "rpm-md", true, "u"⟩ 2000 1000 50 .fetchErr .fetchErr ("s")
      (by decide) (by decide)
  · exact refresh_freshness_noop.2 DB.empty ⟨"a", "n", "rpm-md", true, "u"⟩ 5000
      [⟨"filelists", "", "", "f.gz", 100⟩] ⟨"filelists", "", "", "f.gz", 100⟩ [] ("s")
      6000 .fetchErr .fetchErr ("s") rfl (by decide) (by decide) (by decide) (by decide)

theorem addCalls_mem (pkgs : List UpPackage) (c : AddCall) :
    c ∈ addCalls pkgs ↔
      ∃ p, p ∈ pkgs ∧ ∃ f, f ∈ p.files ∧
        ¬f.ftype = "dir" ∧ isAbs f.path = true ∧
        c = ⟨p.pkgid, p.name, p.arch, formatVersion p.epoch p.ver p.rel, f.path⟩ := by
  simp only [addCalls, List.mem_flatMap, List.mem_map, List.mem_filter, keepFile,
    Bool.and_eq_true, decide_eq_true_eq]
  constructor
  · rintro ⟨p, hp, f, ⟨hf, hdir, habs⟩, rfl⟩
    exact ⟨p, hp, f, hf, hdir, habs, rfl⟩
  · rintro ⟨p, hp, f, hf, hdir, habs, rfl⟩
    exact ⟨p, hp, f, ⟨hf, hdir, habs⟩, rfl⟩

/-- C8: a `<file>` entry of the parsed file-list is passed to the
cache-insert callback if and only if its `type` attribute is not
`"dir"` and its path is absolute; in particular every inserted path is
absolute and comes from a non-directory entry. -/
theorem filelist_keep_iff (pkgs : List UpPackage) (c : AddCall) :
    (c ∈ addCalls pkgs ↔
      ∃ p, p ∈ pkgs ∧ ∃ f, f ∈ p.files ∧
        ¬f.ftype = "dir" ∧ isAbs f.path = true ∧
        c = ⟨p.pkgid, p.name, p.arch, formatVersion p.epoch p.ver p.rel, f.path⟩) ∧
    (c ∈ addCalls pkgs → isAbs c.path = true) := by
  refine ⟨addCalls_mem pkgs c, fun hc => ?_⟩
  obtain ⟨p, _, f, _, _, habs, rfl⟩ := (addCalls_mem pkgs c).mp hc
  exact habs

/-- C8 witness: among four entries of one package — a regular absolute
path, a directory, a relative path — exactly the regular absolute paths
are passed through. -/
theorem filelist_keep_iff_witness :
    (⟨"pid", "pkg", "x86_64", "1.2-3", "/a"⟩ : AddCall) ∈
      addCalls [⟨"pid", "pkg", "x86_64", "", "1.2", "3",
        [⟨"", "/a"⟩, ⟨"dir", "/d"⟩, ⟨"", "rel"⟩]⟩] ∧
    ¬(⟨"pid", "pkg", "x86_64", "1.2-3", "/d"⟩ : AddCall) ∈
      addCalls [⟨"pid", "pkg", "x86_64", "", "1.2", "3",
        [⟨"", "/a"⟩, ⟨"dir", "/d"⟩, ⟨"", "rel"⟩]⟩] := by
  constructor
  · exact (filelist_keep_iff [⟨"pid", "pkg", "x86_64", "", "1.2", "3",
        [⟨"", "/a"⟩, ⟨"dir", "/d"⟩, ⟨"", "rel"⟩]⟩]
      ⟨"pid", "pkg", "x86_64", "1.2-3", "/a"⟩).1.mpr
      ⟨⟨"pid", "pkg", "x86_64", "", "1.2", "3",
          [⟨"", "/a"⟩, ⟨"dir", "/d"⟩, ⟨"", "rel"⟩]⟩,
        by decide, ⟨"", "/a"⟩, by decide, by decide, by decide, by decide⟩
  · intro hc
    obtain ⟨p, hp, f, hf, hdir, habs, heq⟩ :=
      (filelist_keep_iff [⟨"pid", "pkg", "x86_64", "", "1.2", "3",
          [⟨"", "/a"⟩, ⟨"dir", "/d"⟩, ⟨"", "rel"⟩]⟩]
        ⟨"pid", "pkg", "x86_64", "1.2-3", "/d"⟩).1.mp hc
    simp only [List.mem_singleton] at hp
    subst hp
    fin_cases hf <;> simp_all

theorem find?_append_none {α : Type} (p : α → Bool) (l1 l2 : List α)
    (h : ∀ y ∈ l1, p y = false) : (l1 ++ l2).find? p = l2.find? p := by
  induction l1 with
  | nil => rfl
  | cons hd tl ih =>
    have hh := h hd (List.mem_cons_self hd tl)
    simp only [List.cons_append, List.find?, hh]
    exact ih fun y hy => h y (List.mem_cons_of_mem hd hy)

theorem SearchFile_mem (db : DB) (urls : List String) (pat arch : String)
    (row : SearchResult) :
    row ∈ SearchFile db urls pat arch ↔
      ∃ p, p ∈ db.packages ∧ ∃ r, r ∈ db.repositories ∧ ∃ f, f ∈ db.files ∧
        p.repository = r.id ∧ f.pkgid = some p.id ∧ globMatch pat f.file = true ∧
        r.url ∈ urls ∧ archClause arch p.arch = true ∧
        row = ⟨r.name, p.name, p.arch, p.version, f.file⟩ := by
  simp only [SearchFile, List.mem_flatMap, mem_guard]
  constructor
  · rintro ⟨p, hp, r, hr, f, hf, ⟨h1, h2, h3, h4, h5⟩, rfl⟩
    exact ⟨p, hp, r, hr, f, hf, h1, h2, h3, h4, h5, rfl⟩
  · rintro ⟨p, hp, r, hr, f, hf, h1, h2, h3, h4, h5, rfl⟩
    exact ⟨p, hp, r, hr, f, hf, ⟨h1, h2, h3, h4, h5⟩, rfl⟩

theorem pkgQuery_mem (db : DB) (urls : List String) (arch pkg version : String)
    (pid : Nat) :
    pid ∈ pkgQuery db urls arch pkg version ↔
      ∃ p, p ∈ db.packages ∧ ∃ r, r ∈ db.repositories ∧
        p.repository = r.id ∧ p.name = pkg ∧ (version = "" ∨ p.version = version) ∧
        r.url ∈ urls ∧ archClause arch p.arch = true ∧ pid = p.id := by
  simp only [pkgQuery, List.mem_flatMap, mem_guard]
  constructor
  · rintro ⟨p, hp, r, hr, ⟨h1, h2, h3, h4, h5⟩, rfl⟩
    exact ⟨p, hp, r, hr, h1, h2, h3, h4, h5, rfl⟩
  · rintro ⟨p, hp, r, hr, h1, h2, h3, h4, h5, rfl⟩
    exact ⟨p, hp, r, hr, ⟨h1, h2, h3, h4, h5⟩, rfl⟩

theorem globAux_star (s : List Char) :
    ∀ fuel, s.length + 2 ≤ fuel → globAux fuel ['*'] s = true := by
  induction s with
  | nil =>
    intro fuel h
    match fuel, h with
    | n + 2, _ => simp [globAux]
  | cons a s ih =>
    intro fuel h
    match fuel, h with
    | n + 1, h =>
      have hn : s.length + 2 ≤ n := by
        simp only [List.length_cons] at h
        omega
      simp [globAux, ih n hn]

/-- The SQL `GLOB` pattern `*` matches every path. -/
theorem glob_star (s : String) : globMatch ("*") s = true := by
  show globAux (("*").length + s.length + 1) ("*").data s.data = true
  have hd : ("*").data = ['*'] := rfl
  rw [hd]
  apply globAux_star
  have : ("*").length = 1 := rfl
  rw [this]
  have : s.length = s.data.length := rfl
  omega

theorem archClause_empty (a : String) : archClause ("") a = true := by
  simp [archClause]

/-- The package and file rows written by the last `add` call are
present in the state after the whole fold (later calls are what can
replace earlier rows; nothing follows the last call). -/
theorem lastAdd_rows (rid : Nat) (db1 : DB) (calls : List AddCall) (c : AddCall)
    (hlast : calls.getLast? = some c) :
    ∃ pid : Nat,
      (⟨rid, pid, c.pkgid, c.name, c.arch, c.version⟩ : PkgRow) ∈
        (calls.foldl (applyAdd rid) db1).packages ∧
      (⟨some pid, c.path⟩ : FileRow) ∈ (calls.foldl (applyAdd rid) db1).files := by
  obtain ⟨init, rfl⟩ := List.getLast?_eq_some_iff.mp hlast
  rw [List.foldl_append, List.foldl_cons, List.foldl_nil]
  set dbmid := init.foldl (applyAdd rid) db1 with hdbmid
  have hpkgs :
      (insertOrReplacePackage dbmid rid c.pkgid c.name c.arch c.version).packages =
        (dbmid.packages.filter fun p =>
          ¬pkgConflict rid c.pkgid c.name c.arch c.version p) ++
          [⟨rid, dbmid.nextPkgId, c.pkgid, c.name, c.arch, c.version⟩] := rfl
  have hfind :
      (insertOrReplacePackage dbmid rid c.pkgid c.name c.arch c.version).packages.find?
          (fun p => p.pkgid = c.pkgid) =
        some ⟨rid, dbmid.nextPkgId, c.pkgid, c.name, c.arch, c.version⟩ := by
    rw [hpkgs, find?_append_none]
    · simp [List.find?]
    · intro y hy
      have hconf := (List.mem_filter.mp hy).2
      simp only [decide_eq_true_eq] at hconf
      have : pkgConflict rid c.pkgid c.name c.arch c.version y = false := by
        cases h : pkgConflict rid c.pkgid c.name c.arch c.version y
        · rfl
        · exact absurd h hconf
      simp only [pkgConflict, Bool.or_eq_false_iff] at this
      exact this.1
  refine ⟨dbmid.nextPkgId, ?_, ?_⟩
  · show _ ∈ (insertOrReplacePackage dbmid rid c.pkgid c.name c.arch c.version).packages
    exact List.mem_append_right _ (List.mem_singleton.mpr rfl)
  · show _ ∈ (insertOrReplaceFile
      (insertOrReplacePackage dbmid rid c.pkgid c.name c.arch c.version) c.pkgid c.path).files
    simp only [insertOrReplaceFile, hfind, Option.map_some']
    exact List.mem_append_right _ (List.mem_singleton.mpr rfl)

/-- C5: a declared sha512 checksum that disagrees with the computed
digest of the raw file-list body produces a warning but does not abort:
the update errors out nowhere, the committed cache state is the same as
with a matching checksum, and the rows written by the final `add` call
are found by a subsequent `SearchFile` query over this repository. -/
theorem checksum_mismatch_commits (db : DB) (repo : Repo) (now : Int)
    (mdData : List RepomdData) (d : RepomdData) (pkgs : List UpPackage) (sha : String)
    (htype : repo.rtype = "rpm-md")
    (hfr : freshnessHit (GetTimestamps db repo.url) now = false)
    (hfind : mdData.find? (fun x => x.dtype = "filelists") = some d)
    (hts : timestampHit (GetTimestamps db repo.url) d.timestamp = false)
    (hsha : d.checksumType = "sha512") (hmis : ¬sha = d.checksumValue) :
    (updateRepository db repo now (.ok mdData) (.ok pkgs) sha).err = false ∧
    (updateRepository db repo now (.ok mdData) (.ok pkgs) sha).checksumWarn = true ∧
    (updateRepository db repo now (.ok mdData) (.ok pkgs) sha).db =
      (updateRepository db repo now (.ok mdData) (.ok pkgs) d.checksumValue).db ∧
    (∀ c : AddCall, (addCalls pkgs).getLast? = some c →
      (⟨repo.name, c.name, c.arch, c.version, c.path⟩ : SearchResult) ∈
        SearchFile (updateRepository db repo now (.ok mdData) (.ok pkgs) sha).db
          [repo.url] ("*") ("")) := by
  rw [updateRepository_commit_eq db repo now mdData d pkgs sha htype hfr hfind hts,
    updateRepository_commit_eq db repo now mdData d pkgs d.checksumValue htype hfr hfind hts]
  refine ⟨rfl, by simp [hsha, hmis], rfl, ?_⟩
  intro c hlast
  obtain ⟨pid, hpkg, hfile⟩ := lastAdd_rows
    (insertOrReplaceRepository db repo.ralias repo.name repo.url repo.rtype repo.enabled
      now d.timestamp).2
    (insertOrReplaceRepository db repo.ralias repo.name repo.url repo.rtype repo.enabled
      now d.timestamp).1
    (addCalls pkgs) c hlast
  rw [SearchFile_mem]
  refine ⟨_, hpkg, ⟨db.nextRepoId, repo.ralias, repo.name, repo.url, repo.rtype,
    repo.enabled, now, d.timestamp⟩, ?_, _, hfile, rfl, rfl, glob_star _, ?_,
    archClause_empty _, rfl⟩
  · rw [foldl_applyAdd_repositories]
    exact List.mem_append_right _ (List.mem_singleton.mpr rfl)
  · exact List.mem_singleton.mpr rfl

/-- C5 witness: a one-package, one-file list with a wrong sha512 digest
is still committed and the file is found. -/
theorem checksum_mismatch_commits_witness :
    (updateRepository DB.empty ⟨"a", "n", "rpm-md", true, "u"⟩ 5000
        (.ok [⟨"filelists", "sha512", "goodsum", "f.gz", 100⟩])
        (.ok [⟨"pid", "pkg", "x86_64", "", "1.2", "3", [⟨"", "/a"⟩]⟩]) ("badsum")).err =
      false ∧
    (updateRepository DB.empty ⟨"a", "n", "rpm-md", true, "u"⟩ 5000
        (.ok [⟨"filelists", "sha512", "goodsum", "f.gz", 100⟩])
        (.ok [⟨"pid", "pkg", "x86_64", "", "1.2", "3", [⟨"", "/a"⟩]⟩]) ("badsum")).checksumWarn =
      true ∧
    (⟨"n", "pkg", "x86_64", "1.2-3", "/a"⟩ : SearchResult) ∈
      SearchFile (updateRepository DB.empty ⟨"a", "n", "rpm-md", true, "u"⟩ 5000
        (.ok [⟨"filelists", "sha512", "goodsum", "f.gz", 100⟩])
        (.ok [⟨"pid", "pkg", "x86_64", "", "1.2", "3", [⟨"", "/a"⟩]⟩]) ("badsum")).db
        ["u"] ("*") ("") := by
  have h := checksum_mismatch_commits DB.empty ⟨"a", "n", "rpm-md", true, "u"⟩ 5000
    [⟨"filelists", "sha512", "goodsum", "f.gz", 100⟩]
    ⟨"filelists", "sha512", "goodsum", "f.gz", 100⟩
    [⟨"pid", "pkg", "x86_64", "", "1.2", "3", [⟨"", "/a"⟩]⟩] ("badsum")
    rfl (by decide) (by decide) (by decide) rfl (by decide)
  exact ⟨h.1, h.2.1, h.2.2.2 ⟨"pid", "pkg", "x86_64", "1.2-3", "/a"⟩ (by decide)⟩

/-- C6 counterexample: for a disabled repository whose `repomd.xml`
fetch succeeds but fails to parse, the refresh returns an error — the
claim that every parse error is demoted to success for disabled
repositories is false. -/
theorem disabled_parse_error_cex :
    (updateRepository DB.empty ⟨"a", "n", "rpm-md", false, "u"⟩ 5000
      .parseErr .fetchErr ("s")).err = true := by decide

/-- C6 amended: for a disabled repository, only the two fetch errors
are demoted to success with nothing recorded; a `repomd.xml` parse
error, the missing-filelists case, and a file-list parse (or
decompression) error return an error even when the repository is
disabled. -/
theorem disabled_error_demotion (db : DB) (repo : Repo) (now : Int)
    (henabled : repo.enabled = false) (htype : repo.rtype = "rpm-md")
    (hfr : freshnessHit (GetTimestamps db repo.url) now = false) :
    (∀ (fl : FetchOutcome (List UpPackage)) (sha : String),
      updateRepository db repo now .fetchErr fl sha = ⟨db, 1, false, false⟩) ∧
    (∀ (mdData : List RepomdData) (d : RepomdData) (sha : String),
      mdData.find? (fun x => x.dtype = "filelists") = some d →
      timestampHit (GetTimestamps db repo.url) d.timestamp = false →
      updateRepository db repo now (.ok mdData) .fetchErr sha = ⟨db, 2, false, false⟩) ∧
    (∀ (fl : FetchOutcome (List UpPackage)) (sha : String),
      (updateRepository db repo now .parseErr fl sha).err = true) ∧
    (∀ (mdData : List RepomdData) (fl : FetchOutcome (List UpPackage)) (sha : String),
      mdData.find? (fun x => x.dtype = "filelists") = none →
      (updateRepository db repo now (.ok mdData) fl sha).err = true) ∧
    (∀ (mdData : List RepomdData) (d : RepomdData) (sha : String),
      mdData.find? (fun x => x.dtype = "filelists") = some d →
      timestampHit (GetTimestamps db repo.url) d.timestamp = false →
      (updateRepository db repo now (.ok mdData) .parseErr sha).err = true) := by
  refine ⟨?_, ?_, ?_, ?_, ?_⟩
  · intro fl sha
    simp [updateRepository, htype, hfr, henabled]
  · intro mdData d sha hfind hts
    simp [updateRepository, htype, hfr, henabled, hfind, hts]
  · intro fl sha
    simp [updateRepository, htype, hfr]
  · intro mdData fl sha hfind
    simp [updateRepository, htype, hfr, hfind]
  · intro mdData d sha hfind hts
    simp [updateRepository, htype, hfr, hfind, hts]

/-- C6 amended witness: concrete disabled repository — both fetch
errors are demoted, the parse/missing cases error out. -/
theorem disabled_error_demotion_witness :
    updateRepository DB.empty ⟨"a", "n", "rpm-md", false, "u"⟩ 5000
        .fetchErr .fetchErr ("s") = ⟨DB.empty, 1, false, false⟩ ∧
    updateRepository DB.empty ⟨"a", "n", "rpm-md", false, "u"⟩ 5000
        (.ok [⟨"filelists", "", "", "f", 100⟩]) .fetchErr ("s") = ⟨DB.empty, 2, false, false⟩ ∧
    (updateRepository DB.empty ⟨"a", "n", "rpm-md", false, "u"⟩ 5000
        (.ok [⟨"other", "", "", "f", 100⟩]) .fetchErr ("s")).err = true ∧
    (updateRepository DB.empty ⟨"a", "n", "rpm-md", false, "u"⟩ 5000
        (.ok [⟨"filelists", "", "", "f", 100⟩]) .parseErr ("s")).err = true := by
  have h := disabled_error_demotion DB.empty ⟨"a", "n", "rpm-md", false, "u"⟩ 5000
    rfl rfl (by decide)
  exact ⟨h.1 .fetchErr ("s"),
    h.2.1 [⟨"filelists", "", "", "f", 100⟩] ⟨"filelists", "", "", "f", 100⟩ ("s")
      (by decide) (by decide),
    h.2.2.2.1 [⟨"other", "", "", "f", 100⟩] .fetchErr ("s") (by decide),
    h.2.2.2.2 [⟨"filelists", "", "", "f", 100⟩] ⟨"filelists", "", "", "f", 100⟩ ("s")
      (by decide) (by decide)⟩

/-- Any per-row string property that fails for every call of the fold
and for every initial package row fails for every row of the final
state: `applyAdd` only ever appends rows built from its call. -/
theorem foldl_applyAdd_pkg_pred (rid : Nat) (x : String)
    (g : PkgRow → String) (gc : AddCall → String)
    (hg : ∀ (repo pid : Nat) (c : AddCall),
      g ⟨repo, pid, c.pkgid, c.name, c.arch, c.version⟩ = gc c)
    (calls : List AddCall) (db : DB)
    (hc : ∀ c ∈ calls, ¬gc c = x) (h : ∀ r ∈ db.packages, ¬g r = x) :
    ∀ r ∈ (calls.foldl (applyAdd rid) db).packages, ¬g r = x := by
  induction calls generalizing db with
  | nil => exact h
  | cons hd tl ih =>
    rw [List.foldl_cons]
    apply ih _ (fun c hcm => hc c (List.mem_cons_of_mem hd hcm))
    intro r hr
    have hsh : (applyAdd rid db hd).packages =
        (db.packages.filter fun p =>
          ¬pkgConflict rid hd.pkgid hd.name hd.arch hd.version p) ++
          [⟨rid, db.nextPkgId, hd.pkgid, hd.name, hd.arch, hd.version⟩] := rfl
    rw [hsh] at hr
    rcases List.mem_append.mp hr with h1 | h1
    · exact h r (List.mem_filter.mp h1).1
    · rw [List.mem_singleton.mp h1, hg]
      exact hc hd (List.mem_cons_self hd tl)

/-- C9: the body of a refresh invokes the insert callback once per kept
file only, so a package whose entries are all directories or relative
paths (or that has none) is never inserted: no call carries its pkgid,
no package row with its pkgid exists after the commit (assuming no
pre-existing row had it), and no query result names it (assuming
nothing else shares its name). -/
theorem package_without_kept_files_absent (db : DB) (repo : Repo) (now : Int)
    (mdData : List RepomdData) (d : RepomdData) (pkgs : List UpPackage) (sha : String)
    (p : UpPackage)
    (htype : repo.rtype = "rpm-md")
    (hfr : freshnessHit (GetTimestamps db repo.url) now = false)
    (hfind : mdData.find? (fun x => x.dtype = "filelists") = some d)
    (hts : timestampHit (GetTimestamps db repo.url) d.timestamp = false)
    (hsameid : ∀ q ∈ pkgs, q.pkgid = p.pkgid → q.files.filter keepFile = [])
    (hsamename : ∀ q ∈ pkgs, q.name = p.name → q.files.filter keepFile = [])
    (holdid : ∀ r ∈ db.packages, ¬r.pkgid = p.pkgid)
    (holdname : ∀ r ∈ db.packages, ¬r.name = p.name) :
    ((addCalls pkgs).filter (fun c => c.pkgid = p.pkgid) = []) ∧
    (∀ r ∈ (updateRepository db repo now (.ok mdData) (.ok pkgs) sha).db.packages,
      ¬r.pkgid = p.pkgid) ∧
    (∀ (urls : List String) (pat arch : String) (row : SearchResult),
      row ∈ SearchFile (updateRepository db repo now (.ok mdData) (.ok pkgs) sha).db
          urls pat arch → ¬row.package = p.name) := by
  have hcid : ∀ c ∈ addCalls pkgs, ¬c.pkgid = p.pkgid := by
    intro c hc hcp
    obtain ⟨q, hq, f, hf, hdir, habs, rfl⟩ := (addCalls_mem pkgs c).mp hc
    have hnil := hsameid q hq hcp
    have : f ∈ q.files.filter keepFile :=
      List.mem_filter.mpr ⟨hf, by simp [keepFile, hdir, habs]⟩
    rw [hnil] at this
    exact absurd this (List.not_mem_nil f)
  have hcname : ∀ c ∈ addCalls pkgs, ¬c.name = p.name := by
    intro c hc hcp
    obtain ⟨q, hq, f, hf, hdir, habs, rfl⟩ := (addCalls_mem pkgs c).mp hc
    have hnil := hsamename q hq hcp
    have : f ∈ q.files.filter keepFile :=
      List.mem_filter.mpr ⟨hf, by simp [keepFile, hdir, habs]⟩
    rw [hnil] at this
    exact absurd this (List.not_mem_nil f)
  rw [updateRepository_commit_eq db repo now mdData d pkgs sha htype hfr hfind hts]
  have hdb1 : ∀ r ∈ (insertOrReplaceRepository db repo.ralias repo.name repo.url
      repo.rtype repo.enabled now d.timestamp).1.packages, r ∈ db.packages := by
    intro r hr
    exact (List.mem_filter.mp hr).1
  have hfinalid : ∀ r ∈ ((addCalls pkgs).foldl
      (applyAdd (insertOrReplaceRepository db repo.ralias repo.name repo.url
        repo.rtype repo.enabled now d.timestamp).2)
      (insertOrReplaceRepository db repo.ralias repo.name repo.url
        repo.rtype repo.enabled now d.timestamp).1).packages, ¬r.pkgid = p.pkgid :=
    foldl_applyAdd_pkg_pred _ p.pkgid (fun r => r.pkgid) (fun c => c.pkgid)
      (fun _ _ _ => rfl) (addCalls pkgs) _ hcid
      (fun r hr => holdid r (hdb1 r hr))
  have hfinalname : ∀ r ∈ ((addCalls pkgs).foldl
      (applyAdd (insertOrReplaceRepository db repo.ralias repo.name repo.url
        repo.rtype repo.enabled now d.timestamp).2)
      (insertOrReplaceRepository db repo.ralias repo.name repo.url
        repo.rtype repo.enabled now d.timestamp).1).packages, ¬r.name = p.name :=
    foldl_applyAdd_pkg_pred _ p.name (fun r => r.name) (fun c => c.name)
      (fun _ _ _ => rfl) (addCalls pkgs) _ hcname
      (fun r hr => holdname r (hdb1 r hr))
  refine ⟨?_, hfinalid, ?_⟩
  · rw [List.filter_eq_nil_iff]
    intro c hc
    simpa using hcid c hc
  · intro urls pat arch row hrow
    obtain ⟨pk, hpk, r, hr, f, hf, _, _, _, _, _, rfl⟩ :=
      (SearchFile_mem _ urls pat arch row).mp hrow
    exact hfinalname pk hpk

/-- C9 witness: a package whose only entries are a directory and a
relative path contributes no insert call and no package row. -/
theorem package_without_kept_files_absent_witness :
    ((addCalls [⟨"pid", "pkg", "x86_64", "", "1", "2",
        [⟨"dir", "/d"⟩, ⟨"", "rel"⟩]⟩]).filter (fun c => c.pkgid = "pid") = []) ∧
    (∀ r ∈ (updateRepository DB.empty ⟨"a", "n", "rpm-md", true, "u"⟩ 5000
        (.ok [⟨"filelists", "", "", "f", 100⟩])
        (.ok [⟨"pid", "pkg", "x86_64", "", "1", "2",
          [⟨"dir", "/d"⟩, ⟨"", "rel"⟩]⟩]) ("s")).db.packages,
      ¬r.pkgid = "pid") := by
  have h := package_without_kept_files_absent DB.empty ⟨"a", "n", "rpm-md", true, "u"⟩ 5000
    [⟨"filelists", "", "", "f", 100⟩] ⟨"filelists", "", "", "f", 100⟩
    [⟨"pid", "pkg", "x86_64", "", "1", "2", [⟨"dir", "/d"⟩, ⟨"", "rel"⟩]⟩] ("s")
    ⟨"pid", "pkg", "x86_64", "", "1", "2", [⟨"dir", "/d"⟩, ⟨"", "rel"⟩]⟩
    rfl (by decide) (by decide) (by decide)
    (by intro q hq hqp; fin_cases hq; decide)
    (by intro q hq hqp; fin_cases hq; decide)
    (by intro r hr; exact absurd hr (List.not_mem_nil r))
    (by intro r hr; exact absurd hr (List.not_mem_nil r))
  exact ⟨h.1, h.2.1⟩

/-- `lastDash` really is the rightmost dash: it points at a `-` and
nothing after it is a `-`. -/
theorem lastDash_spec (t : List Char) (i : Nat) (h : lastDash t = some i) :
    ∃ hi : i < t.length, t.get ⟨i, hi⟩ = '-' ∧
      ∀ j (hj : j < t.length), i < j → ¬t.get ⟨j, hj⟩ = '-' := by
  unfold lastDash at h
  rw [Option.map_eq_some'] at h
  obtain ⟨k, hk, hik⟩ := h
  obtain ⟨hklen, hpk, hprev⟩ := List.findIdx?_eq_some_iff_getElem.mp hk
  have hklen' : k < t.length := by simpa using hklen
  subst hik
  have hi : t.length - 1 - k < t.length := by omega
  refine ⟨hi, ?_, ?_⟩
  · have hrev := List.getElem_reverse (l := t) (i := k) hklen
    simp only [decide_eq_true_eq] at hpk
    simp only [List.get_eq_getElem]
    rw [← hrev]
    exact hpk
  · intro j hj hij hdash
    have hm : t.length - 1 - j < t.reverse.length := by
      simp only [List.length_reverse]
      omega
    have hmk : t.length - 1 - j < k := by omega
    have hback : t.length - 1 - (t.length - 1 - j) = j := by omega
    apply hprev (t.length - 1 - j) hmk
    have hrev := List.getElem_reverse (l := t) (i := t.length - 1 - j) hm
    simp only [decide_eq_true_eq]
    rw [hrev]
    simp only [List.get_eq_getElem] at hdash
    simp only [hback]
    exact hdash

/-- The candidate loop returns the first candidate (in list order)
whose query yields rows, with all its rows; later candidates are not
reflected in the result at all. -/
theorem tryCandidates_first_hit (db : DB) (urls : List String) (arch : String)
    (cs : List (String × String)) :
    tryCandidates db urls arch cs =
      match (cs.map fun c => pkgQuery db urls arch c.1 c.2).find?
          (fun res => !res.isEmpty) with
      | some res => (res, true)
      | none => ([], false) := by
  induction cs with
  | nil => rfl
  | cons hd tl ih =>
    obtain ⟨pk, vr⟩ := hd
    by_cases h : (pkgQuery db urls arch pk vr).isEmpty
    · simp [tryCandidates, List.find?, h, ih]
    · simp [tryCandidates, List.find?, h]

/-- C3: each term is first stripped of one trailing dash; the candidate
splits — whole term (any version), split at the rightmost dash, split
at the second-rightmost dash — are tried in order and the first
candidate whose query returns rows supplies the term's package ids;
when none does, the term is recorded as `package not found` and the
scan continues with the remaining terms; `lastDash` indeed finds the
rightmost dash. -/
theorem listpackage_term_splitting :
    (∀ (db : DB) (urls : List String) (arch : String) (term : List Char),
      processTerm db urls arch term =
        match ((candidates (trimDash term)).map fun c =>
            pkgQuery db urls arch c.1 c.2).find? (fun res => !res.isEmpty) with
        | some res => (res, true)
        | none => ([], false)) ∧
    (∀ (db : DB) (urls : List String) (arch : String) (term : List Char),
      (processTerm db urls arch term).2 = false ↔
        ∀ c ∈ candidates (trimDash term), pkgQuery db urls arch c.1 c.2 = []) ∧
    (∀ (db : DB) (urls : List String) (arch : String) (t : List Char)
        (ts : List (List Char)),
      scanTerms db urls arch (t :: ts) =
        ((processTerm db urls arch t).1 ++ (scanTerms db urls arch ts).1,
         (if (processTerm db urls arch t).2 then [] else [trimDash t]) ++
           (scanTerms db urls arch ts).2)) ∧
    (∀ (t : List Char) (i : Nat), lastDash t = some i →
      ∃ hi : i < t.length, t.get ⟨i, hi⟩ = '-' ∧
        ∀ j (hj : j < t.length), i < j → ¬t.get ⟨j, hj⟩ = '-') := by
  have hfirst : ∀ (db : DB) (urls : List String) (arch : String) (term : List Char),
      processTerm db urls arch term =
        match ((candidates (trimDash term)).map fun c =>
            pkgQuery db urls arch c.1 c.2).find? (fun res => !res.isEmpty) with
        | some res => (res, true)
        | none => ([], false) := by
    intro db urls arch term
    exact tryCandidates_first_hit db urls arch (candidates (trimDash term))
  refine ⟨hfirst, ?_, ?_, lastDash_spec⟩
  · intro db urls arch term
    rw [hfirst db urls arch term]
    cases hf : ((candidates (trimDash term)).map fun c =>
        pkgQuery db urls arch c.1 c.2).find? (fun res => !res.isEmpty) with
    | none =>
      simp only [List.find?_eq_none, List.mem_map, Bool.not_eq_true,
        forall_exists_index] at hf
      constructor
      · intro _ c hc
        have := hf (pkgQuery db urls arch c.1 c.2) c ⟨hc, rfl⟩
        simpa [List.isEmpty_iff] using this
      · intro _
        rfl
    | some res =>
      have hmem := List.find?_some hf
      have hres := List.mem_of_find?_eq_some hf
      obtain ⟨c, hc, hceq⟩ := List.mem_map.mp hres
      simp only [Bool.not_eq_true'] at hmem
      constructor
      · intro habs
        simp at habs
      · intro hall
        have := hall c hc
        rw [hceq] at this
        rw [this] at hmem
        simp at hmem
  · intro db urls arch t ts
    simp [scanTerms]

/-- C3 witness: for the term `foo-1.2-3` the candidates are, in order,
`(foo-1.2-3, any)`, `(foo-1.2, 3)`, `(foo, 1.2-3)`; in a cache that has
a package named `foo-1.2` with version `3`, the second candidate wins
even though a package `foo` with a different version also exists. -/
theorem listpackage_term_splitting_witness :
    candidates (trimDash ("foo-1.2-3".data)) =
      [("foo-1.2-3", ""), ("foo-1.2", "3"), ("foo", "1.2-3")] ∧
    processTerm ⟨[⟨1, "a", "rn", "u", "rpm-md", true, 0, 0⟩],
        [⟨1, 2, "pidA", "foo-1.2", "noarch", "3"⟩, ⟨1, 3, "pidB", "foo", "noarch", "9"⟩],
        [], 2, 4⟩ ["u"] ("") ("foo-1.2-3".data) = ([2], true) ∧
    (processTerm ⟨[⟨1, "a", "rn", "u", "rpm-md", true, 0, 0⟩],
        [⟨1, 2, "pidA", "foo-1.2", "noarch", "3"⟩, ⟨1, 3, "pidB", "foo", "noarch", "9"⟩],
        [], 2, 4⟩ ["u"] ("") ("bar".data)).2 = false := by
  refine ⟨by decide, ?_, ?_⟩
  · rw [listpackage_term_splitting.1 _ ["u"] ("") ("foo-1.2-3".data)]
    decide
  · rw [listpackage_term_splitting.1 _ ["u"] ("") ("bar".data)]
    decide

/-- Modelled from the claim's words (C2): the documented arch
predicate — the package arch is `noarch`, or the requested arch starts
with the package arch as a literal, case-sensitive prefix. -/
def specArchMatch (requested pkgArch : String) : Bool :=
  pkgArch = "noarch" || pkgArch.data.isPrefixOf requested.data

/-- C2 counterexample: a cached package with arch `i586` and requested
arch `I586` — the row is returned, because SQL `LIKE` compares
ASCII-case-insensitively, although `I586` does not start with `i586`
as a literal case-sensitive prefix and `i586 ≠ noarch`; the claimed
"if and only if" is false at this input. -/
theorem arch_literal_prefix_cex :
    SearchFile ⟨[⟨1, "a", "rn", "u", "rpm-md", true, 0, 0⟩],
        [⟨1, 2, "pid", "pn", "i586", "1-1"⟩], [⟨some 2, "/f"⟩], 2, 3⟩
      ["u"] ("/f") ("I586") =
      [⟨"rn", "pn", "i586", "1-1", "/f"⟩] ∧
    specArchMatch ("I586") ("i586") = false := by decide

/-- C2 amended: both queries admit a package row for a non-empty
requested arch `R` iff the package arch `A` is `noarch` or `R` matches
the SQL `LIKE` pattern `A || '%'` (ASCII-case-insensitive, with `%` and
`_` in `A` acting as wildcards); an empty `R` omits the filter so every
arch matches. -/
theorem arch_filter_sqlite_like (db : DB) (urls : List String) (path arch : String) :
    (∀ row : SearchResult, row ∈ SearchFile db urls path arch ↔
      ∃ p, p ∈ db.packages ∧ ∃ r, r ∈ db.repositories ∧ ∃ f, f ∈ db.files ∧
        p.repository = r.id ∧ f.pkgid = some p.id ∧ globMatch path f.file = true ∧
        r.url ∈ urls ∧ archClause arch p.arch = true ∧
        row = ⟨r.name, p.name, p.arch, p.version, f.file⟩) ∧
    (∀ (pkg version : String) (pid : Nat),
      pid ∈ pkgQuery db urls arch pkg version ↔
        ∃ p, p ∈ db.packages ∧ ∃ r, r ∈ db.repositories ∧
          p.repository = r.id ∧ p.name = pkg ∧ (version = "" ∨ p.version = version) ∧
          r.url ∈ urls ∧ archClause arch p.arch = true ∧ pid = p.id) ∧
    (∀ a : String, archClause ("") a = true) ∧
    (∀ a : String, archClause arch a =
      ((arch = "") || (a = "noarch") || likeMatch (a ++ "%") arch)) := by
  exact ⟨fun row => SearchFile_mem db urls path arch row,
    fun pkg version pid => pkgQuery_mem db urls arch pkg version pid,
    archClause_empty,
    fun a => rfl⟩

/-- C2 amended witness: the `i586` package is matched by requested arch
`I586` (LIKE, case-insensitive) and by the empty requested arch. -/
theorem arch_filter_sqlite_like_witness :
    ((⟨"rn", "pn", "i586", "1-1", "/f"⟩ : SearchResult) ∈
      SearchFile ⟨[⟨1, "a", "rn", "u", "rpm-md", true, 0, 0⟩],
        [⟨1, 2, "pid", "pn", "i586", "1-1"⟩], [⟨some 2, "/f"⟩], 2, 3⟩
        ["u"] ("/f") ("I586")) ∧
    archClause ("") ("s390x") = true := by
  constructor
  · apply (arch_filter_sqlite_like ⟨[⟨1, "a", "rn", "u", "rpm-md", true, 0, 0⟩],
      [⟨1, 2, "pid", "pn", "i586", "1-1"⟩], [⟨some 2, "/f"⟩], 2, 3⟩
      ["u"] ("/f") ("I586")).1 ⟨"rn", "pn", "i586", "1-1", "/f"⟩ |>.mpr
    exact ⟨⟨1, 2, "pid", "pn", "i586", "1-1"⟩, by decide,
      ⟨1, "a", "rn", "u", "rpm-md", true, 0, 0⟩, by decide,
      ⟨some 2, "/f"⟩, by decide, by decide, by decide, by decide, by decide,
      by decide, rfl⟩
  · exact (arch_filter_sqlite_like DB.empty [] ("") ("")).2.2.1 ("s390x")

/-- The row-set invariant enforced by
`UNIQUE (repository, name, arch, version)` in the `packages` schema. -/
def pkgKeyUnique (db : DB) : Prop :=
  db.packages.Pairwise fun a b =>
    ¬(a.repository = b.repository ∧ a.name = b.name ∧ a.arch = b.arch ∧
      a.version = b.version)

theorem pkgKeyUnique_insertPackage (db : DB) (rid : Nat)
    (pkgid name arch version : String) (h : pkgKeyUnique db) :
    pkgKeyUnique (insertOrReplacePackage db rid pkgid name arch version) := by
  unfold pkgKeyUnique at h ⊢
  have hsh : (insertOrReplacePackage db rid pkgid name arch version).packages =
      (db.packages.filter fun p => ¬pkgConflict rid pkgid name arch version p) ++
      [⟨rid, db.nextPkgId, pkgid, name, arch, version⟩] := rfl
  rw [hsh, List.pairwise_append]
  refine ⟨h.sublist (List.filter_sublist _), List.pairwise_singleton _ _, ?_⟩
  intro a ha b hb
  rw [List.mem_singleton] at hb
  subst hb
  have hconf := (List.mem_filter.mp ha).2
  simp only [decide_eq_true_eq] at hconf
  rintro ⟨h1, h2, h3, h4⟩
  apply hconf
  simp [pkgConflict, h1, h2, h3, h4]

theorem pkgKeyUnique_insertFile (db : DB) (pkgid file : String) (h : pkgKeyUnique db) :
    pkgKeyUnique (insertOrReplaceFile db pkgid file) := h

theorem pkgKeyUnique_insertRepo (db : DB) (ralias name url rtype : String)
    (enabled : Bool) (lc lm : Int) (h : pkgKeyUnique db) :
    pkgKeyUnique (insertOrReplaceRepository db ralias name url rtype enabled lc lm).1 :=
  h.sublist (List.filter_sublist _)

theorem pkgKeyUnique_applyAdd (rid : Nat) (db : DB) (c : AddCall) (h : pkgKeyUnique db) :
    pkgKeyUnique (applyAdd rid db c) :=
  pkgKeyUnique_insertFile _ _ _ (pkgKeyUnique_insertPackage db rid _ _ _ _ h)

theorem pkgKeyUnique_foldl (rid : Nat) (calls : List AddCall) (db : DB)
    (h : pkgKeyUnique db) : pkgKeyUnique (calls.foldl (applyAdd rid) db) := by
  induction calls generalizing db with
  | nil => exact h
  | cons hd tl ih => exact ih _ (pkgKeyUnique_applyAdd rid db hd h)

theorem pkgKeyUnique_execCmd (rid : Nat) (db : DB) (c : Cmd) (h : pkgKeyUnique db) :
    pkgKeyUnique (execCmd rid db c) := by
  cases c with
  | pkg pkgid name arch version => exact pkgKeyUnique_insertPackage db rid _ _ _ _ h
  | file pkgid file => exact pkgKeyUnique_insertFile db _ _ h

theorem pkgKeyUnique_runCalls (rid : Nat) (calls : List (Cmd × Bool)) (db db2 : DB)
    (hrun : runCalls rid db calls = some db2) (h : pkgKeyUnique db) :
    pkgKeyUnique db2 := by
  induction calls generalizing db with
  | nil =>
    simp only [runCalls, Option.some.injEq] at hrun
    exact hrun ▸ h
  | cons hd tl ih =>
    obtain ⟨c, ok⟩ := hd
    cases ok with
    | false => simp [runCalls] at hrun
    | true =>
      exact ih (execCmd rid db c) hrun (pkgKeyUnique_execCmd rid db c h)

theorem pkgKeyUnique_updateRepository (db : DB) (repo : Repo) (now : Int)
    (md : FetchOutcome (List RepomdData)) (fl : FetchOutcome (List UpPackage))
    (sha : String) (h : pkgKeyUnique db) :
    pkgKeyUnique (updateRepository db repo now md fl sha).db := by
  by_cases htype : repo.rtype = "rpm-md"
  case neg => simpa [updateRepository, htype] using h
  by_cases hfr : freshnessHit (GetTimestamps db repo.url) now = true
  · simpa [updateRepository, htype, hfr] using h
  rw [Bool.not_eq_true] at hfr
  cases md with
  | fetchErr => simpa [updateRepository, htype, hfr] using h
  | parseErr => simpa [updateRepository, htype, hfr] using h
  | ok mdData =>
    cases hfind : mdData.find? (fun x => x.dtype = "filelists") with
    | none => simpa [updateRepository, htype, hfr, hfind] using h
    | some d =>
      by_cases hts : timestampHit (GetTimestamps db repo.url) d.timestamp = true
      · simpa [updateRepository, htype, hfr, hfind, hts] using h
      · rw [Bool.not_eq_true] at hts
        cases fl with
        | fetchErr => simpa [updateRepository, htype, hfr, hfind, hts] using h
        | parseErr => simpa [updateRepository, htype, hfr, hfind, hts] using h
        | ok pkgs =>
          rw [updateRepository_commit_eq db repo now mdData d pkgs sha htype hfr hfind hts]
          exact pkgKeyUnique_foldl _ _ _
            (pkgKeyUnique_insertRepo db _ _ _ _ _ _ _ h)

theorem pkgKeyUnique_UpdateRepository (db : DB) (ralias name url rtype : String)
    (enabled : Bool) (lc lm : Int) (t : TxInput) (h : pkgKeyUnique db) :
    pkgKeyUnique (UpdateRepository db ralias name url rtype enabled lc lm t).db := by
  by_cases hrio : t.repoInsertOk = true
  case neg => simpa [UpdateRepository, hrio] using h
  cases hrun : runCalls
      (insertOrReplaceRepository db ralias name url rtype enabled lc lm).2
      (insertOrReplaceRepository db ralias name url rtype enabled lc lm).1 t.calls with
  | none => simpa [UpdateRepository, hrio, hrun] using h
  | some db2 =>
    by_cases hbe : t.bodyErr = true
    · simpa [UpdateRepository, hrio, hrun, hbe] using h
    by_cases hco : t.commitOk = true
    · have hdb : (UpdateRepository db ralias name url rtype enabled lc lm t).db = db2 := by
        simp [UpdateRepository, hrio, hrun, hbe, hco]
      rw [hdb]
      exact pkgKeyUnique_runCalls _ _ _ _ hrun
        (pkgKeyUnique_insertRepo db _ _ _ _ _ _ _ h)
    · simpa [UpdateRepository, hrio, hrun, hbe, hco] using h

/-- C4 counterexample: the upstream tuples `(epoch, version, release)`
`("", "a-b", "c")` and `("", "a", "b-c")` produce identical cache
states, so no function of the cache (in particular no attribute of a
package row) can recover the release: epoch, version and release are
not stored as separate attributes. -/
theorem pkg_epoch_release_cex :
    updateRepository DB.empty ⟨"a", "n", "rpm-md", true, "u"⟩ 5000
        (.ok [⟨"filelists", "", "", "f", 100⟩])
        (.ok [⟨"pid", "pn", "x86_64", "", "a-b", "c", [⟨"", "/f"⟩]⟩]) ("s") =
      updateRepository DB.empty ⟨"a", "n", "rpm-md", true, "u"⟩ 5000
        (.ok [⟨"filelists", "", "", "f", 100⟩])
        (.ok [⟨"pid", "pn", "x86_64", "", "a", "b-c", [⟨"", "/f"⟩]⟩]) ("s") ∧
    ¬("c" : String) = "b-c" ∧
    ¬∃ relOf : DB → String,
      relOf (updateRepository DB.empty ⟨"a", "n", "rpm-md", true, "u"⟩ 5000
        (.ok [⟨"filelists", "", "", "f", 100⟩])
        (.ok [⟨"pid", "pn", "x86_64", "", "a-b", "c", [⟨"", "/f"⟩]⟩]) ("s")).db = "c" ∧
      relOf (updateRepository DB.empty ⟨"a", "n", "rpm-md", true, "u"⟩ 5000
        (.ok [⟨"filelists", "", "", "f", 100⟩])
        (.ok [⟨"pid", "pn", "x86_64", "", "a", "b-c", [⟨"", "/f"⟩]⟩]) ("s")).db = "b-c" := by
  refine ⟨by decide, by decide, ?_⟩
  rintro ⟨relOf, h1, h2⟩
  have hdb : (updateRepository DB.empty ⟨"a", "n", "rpm-md", true, "u"⟩ 5000
      (.ok [⟨"filelists", "", "", "f", 100⟩])
      (.ok [⟨"pid", "pn", "x86_64", "", "a-b", "c", [⟨"", "/f"⟩]⟩]) ("s")).db =
      (updateRepository DB.empty ⟨"a", "n", "rpm-md", true, "u"⟩ 5000
      (.ok [⟨"filelists", "", "", "f", 100⟩])
      (.ok [⟨"pid", "pn", "x86_64", "", "a", "b-c", [⟨"", "/f"⟩]⟩]) ("s")).db := by decide
  rw [hdb] at h1
  exact absurd (h1.symm.trans h2) (by decide)

/-- C4 amended: each cache write carries the single combined version
string `formatVersion epoch ver rel` (`v-r`, or `e:v-r` for a
non-trivial epoch), and every insert path of the store preserves
uniqueness of `(repository, name, arch, version)` across package
rows. -/
theorem pkg_combined_version_unique :
    (∀ (pkgs : List UpPackage) (c : AddCall), c ∈ addCalls pkgs →
      ∃ p, p ∈ pkgs ∧ c.pkgid = p.pkgid ∧ c.name = p.name ∧ c.arch = p.arch ∧
        c.version = formatVersion p.epoch p.ver p.rel) ∧
    pkgKeyUnique DB.empty ∧
    (∀ (db : DB) (rid : Nat) (pkgid name arch version : String), pkgKeyUnique db →
      pkgKeyUnique (insertOrReplacePackage db rid pkgid name arch version)) ∧
    (∀ (db : DB) (repo : Repo) (now : Int) (md : FetchOutcome (List RepomdData))
        (fl : FetchOutcome (List UpPackage)) (sha : String), pkgKeyUnique db →
      pkgKeyUnique (updateRepository db repo now md fl sha).db) ∧
    (∀ (db : DB) (ralias name url rtype : String) (enabled : Bool) (lc lm : Int)
        (t : TxInput), pkgKeyUnique db →
      pkgKeyUnique (UpdateRepository db ralias name url rtype enabled lc lm t).db) := by
  refine ⟨?_, ?_, pkgKeyUnique_insertPackage, pkgKeyUnique_updateRepository,
    pkgKeyUnique_UpdateRepository⟩
  · intro pkgs c hc
    obtain ⟨p, hp, f, _, _, _, rfl⟩ := (addCalls_mem pkgs c).mp hc
    exact ⟨p, hp, rfl, rfl, rfl, rfl⟩
  · exact List.Pairwise.nil

/-- C4 amended witness: a two-row cache state built by two inserts
satisfies the 4-tuple uniqueness; the formatted version of
`(2, 1.5, 6)` is `2:1.5-6`. -/
theorem pkg_combined_version_unique_witness :
    pkgKeyUnique (updateRepository DB.empty ⟨"a", "n", "rpm-md", true, "u"⟩ 5000
      (.ok [⟨"filelists", "", "", "f", 100⟩])
      (.ok [⟨"pidA", "pn", "x86_64", "2", "1.5", "6", [⟨"", "/f"⟩]⟩,
            ⟨"pidB", "qn", "x86_64", "", "1", "2", [⟨"", "/g"⟩]⟩]) ("s")).db ∧
    formatVersion ("2") ("1.5") ("6") = "2:1.5-6" := by
  constructor
  · exact pkg_combined_version_unique.2.2.2.1 DB.empty ⟨"a", "n", "rpm-md", true, "u"⟩
      5000 (.ok [⟨"filelists", "", "", "f", 100⟩])
      (.ok [⟨"pidA", "pn", "x86_64", "2", "1.5", "6", [⟨"", "/f"⟩]⟩,
            ⟨"pidB", "qn", "x86_64", "", "1", "2", [⟨"", "/g"⟩]⟩]) ("s")
      List.Pairwise.nil
  · decide

/-- C10: the requested arch is concatenated verbatim into the SQL text
of both queries (only the glob path, the name/version parameters and
the repository URLs are bound as `?` parameters), and an arch
containing a single quote produces a query text with an unterminated
string literal, which the SQL parser rejects: the operation returns an
error instead of applying the documented arch predicate. -/
theorem arch_spliced_into_sql (n : Nat) (arch path : String) (urls : List String) :
    (¬arch = "" → searchQueryText n arch =
      searchQueryText n ("") ++ " AND (packages.arch == 'noarch' OR '" ++ arch ++
        "' LIKE packages.arch || '%' )") ∧
    (¬arch = "" → pkgQueryText n arch =
      pkgQueryText n ("") ++ " AND (packages.arch == 'noarch' OR '" ++ arch ++
        "' LIKE packages.arch || '%' )") ∧
    searchQueryArgs path urls = path :: urls ∧
    sqlTextOk (searchQueryText 1 ("x86_64")) = true ∧
    sqlTextOk (searchQueryText 1 ("x86_64'")) = false ∧
    sqlTextOk (pkgQueryText 1 ("x86_64'")) = false := by
  refine ⟨?_, ?_, rfl, by decide, by decide, by decide⟩
  · intro h
    simp [searchQueryText, archClauseText, h, String.append_assoc]
  · intro h
    simp [pkgQueryText, archClauseText, h, String.append_assoc]

/-- C10 witness: the splice equality at the concrete arch `x86_64`,
plus the concrete malformed/well-formed query texts. -/
theorem arch_spliced_into_sql_witness :
    searchQueryText 1 ("x86_64") =
      searchQueryText 1 ("") ++ " AND (packages.arch == 'noarch' OR '" ++ "x86_64" ++
        "' LIKE packages.arch || '%' )" ∧
    sqlTextOk (searchQueryText 1 ("x86_64'")) = false := by
  exact ⟨(arch_spliced_into_sql 1 ("x86_64") ("/f") ["u"]).1 (by decide),
    (arch_spliced_into_sql 1 ("x86_64") ("/f") ["u"]).2.2.2.2.1⟩

end ZypperFilesearch
